import Mathlib

/-!
Verification development for the plugin-registry maintenance scripts:
the registry merger (scripts/merge-plugins.mjs and its CLI-flag variant)
and the download-count reconciler (updateDownloadCounts).

The JSON registry document is shallowly embedded: a plugin record keeps the
six named fields the pipeline reads or writes (`id`, `name`, `version`,
`downloadUrl`, `downloadCount`, `updateTime`) plus an opaque `extra`
association list standing for every other field carried through a JS object
spread; a document keeps its `plugins` key (optional, as in JS) plus opaque
sibling metadata. Platform primitives (the WHATWG URL parser, the network)
are oracle functions in an `Env`; everything the scripts themselves compute
is translated line by line from the source.
-/

namespace PluginIndex

/-- One entry of `plugins.v4.json`.  `extra` models all further JS object
fields, which the pipeline copies verbatim (object spread). -/
structure Plugin where
  id : String
  name : Option String
  version : Option String
  downloadUrl : Option String
  downloadCount : Option Int
  updateTime : Option String
  extra : List (String × String)
deriving DecidableEq

/-- A registry document: the `plugins` key (absent in JS ↦ `none`) plus
opaque top-level sibling fields. -/
structure Doc where
  plugins : Option (List Plugin)
  extra : List (String × String)
deriving DecidableEq

/-- Helper to build a plugin record carrying only an id. -/
def mkPlugin (i : String) : Plugin :=
  ⟨i, none, none, none, none, none, []⟩

/-! ## Registry merger (merge-plugins.mjs, both variants)

`storePluginMap` is a JS `Map` built by `map.set(p.id, p.downloadCount ?? 0)`
over `storeData.plugins`; a later entry with the same id overwrites an
earlier one, so a lookup returns the LAST matching entry's count.
`?? 0` (nullish coalescing) is `Option.getD 0`. -/

/-- `storePluginMap.has(id) ? storePluginMap.get(id) : ...` — the map lookup:
the last store entry whose id matches, with its `downloadCount ?? 0`. -/
def storeMapGet (storePs : List Plugin) (i : String) : Option Int :=
  (storePs.reverse.find? (fun p => p.id == i)).map (fun p => p.downloadCount.getD 0)

/-- One iteration of the merge loop: `{...mainPlugin}` (copy every field),
then overwrite `downloadCount` with the looked-up store value, 0 if absent. -/
def mergePlugin (storePs : List Plugin) (mp : Plugin) : Plugin :=
  { mp with downloadCount := some ((storeMapGet storePs mp.id).getD 0) }

/-- The pure merge computation on two parsed documents: `mainData.plugins`
is replaced by the merged list (built from `mainData.plugins` if present,
else empty), all other top-level fields of `mainData` kept. -/
def mergeDocs (mainData storeData : Doc) : Doc :=
  let storePs := storeData.plugins.getD []
  let mergedPlugins := (mainData.plugins.getD []).map (mergePlugin storePs)
  { mainData with plugins := some mergedPlugins }

/-- State of a file as the script sees it: absent (`readFileSync` throws),
present but not valid JSON (`JSON.parse` throws), or parsed. -/
inductive FileInput
  | missing
  | invalid (raw : String)
  | valid (doc : Doc)

/-- `readJSON` of merge-plugins.mjs: on any read or parse failure it logs and
calls `process.exit(1)`.  `process.exit` terminates the process — it does not
throw a JS exception — so the failure is an exit effect (`Except.error 1`),
not a catchable exception. -/
def readJSON (f : FileInput) : Except Nat Doc :=
  match f with
  | .valid d => Except.ok d
  | .missing => Except.error 1
  | .invalid _ => Except.error 1

/-- The merge script body after argument handling: read main, read store,
merge, write the result.  The source wraps the store read in
`try { storeData = readJSON(storeFile) } catch { ... treat as empty ... }`,
but `readJSON` never throws — on failure it exits the process — so the
catch block is unreachable and a bad store file terminates the script.
The returned document is what `writeFileSync` serializes. -/
def mergeScript (mainFile storeFile : FileInput) : Except Nat Doc := do
  let mainData ← readJSON mainFile
  let storeData ← readJSON storeFile
  pure (mergeDocs mainData storeData)

/-! ## Download-count reconciler (updateDownloadCounts script)

Constants from the source. -/

def GITHUB_API_BASE : String := "https://api.github.com"

def CONCURRENCY : Nat := 5

def RETRY_TIMES : Nat := 2

def RETRY_DELAY : Nat := 1000

/-- Result of the platform URL parser (`new URL(...)`): the two components
the script reads. -/
structure URLParts where
  hostname : String
  pathname : String

/-- One release asset as returned by the GitHub API (`download_count` may be
absent). -/
structure Asset where
  download_count : Option Int
deriving DecidableEq

/-- One release object (`assets` may be absent). -/
structure Release where
  assets : Option (List Asset)
deriving DecidableEq

/-- The execution environment: the platform URL parser and the network.
`releases owner repo k` is the outcome of the k-th attempt of
`GET /repos/{owner}/{repo}/releases` (headers, token and pagination are part
of this opaque boundary); `Except.error` covers transport failures and the
non-2xx branch that `fetchWithRetry` turns into a thrown error. -/
structure Env where
  parseURL : String → Option URLParts
  releases : String → String → Nat → Except String (List Release)

/-- JS `String.prototype.split` on a single-character separator, on the
character list of the string.  `"".split(sep)` is `[""]`. -/
def splitOnChar (sep : Char) : List Char → List (List Char)
  | [] => [[]]
  | c :: rest =>
    let r := splitOnChar sep rest
    if c == sep then [] :: r
    else
      match r with
      | [] => [[c]]
      | h :: t => (c :: h) :: t

/-- `extractGitHubRepo`: parse the URL (a `downloadUrl` that is absent or
unparseable yields `null` via the catch), require host `github.com`, split
the pathname on `/`, drop empty (falsy) parts, and need at least two parts:
`{ owner: parts[0], repo: parts[1] }`. -/
def extractGitHubRepo (env : Env) (downloadUrl : Option String) :
    Option (String × String) :=
  match downloadUrl with
  | none => none
  | some u =>
    match env.parseURL u with
    | none => none
    | some url =>
      if url.hostname = "github.com" then
        let parts := ((splitOnChar '/' url.pathname.data).map String.mk).filter
          (fun p => p != "")
        match parts with
        | owner :: repo :: _ => some (owner, repo)
        | _ => none
      else none

/-- `fetchWithRetry(url, options, retry)` over the attempt oracle: try the
k-th attempt; on failure, if `retry > 0`, wait `RETRY_DELAY` ms and recurse
with `retry - 1`, else rethrow (the `if (retry > 0)` of the source is the
zero/successor case split).  Returns the final outcome together with the
number of attempts performed and the total milliseconds slept between
attempts. -/
def fetchWithRetry (attempt : Nat → Except String (List Release)) :
    Nat → Nat → Except String (List Release) × Nat × Nat
  | 0, k =>
    match attempt k with
    | Except.ok v => (Except.ok v, 1, 0)
    | Except.error e => (Except.error e, 1, 0)
  | Nat.succ r, k =>
    match attempt k with
    | Except.ok v => (Except.ok v, 1, 0)
    | Except.error _ =>
      let res := fetchWithRetry attempt r (k + 1)
      (res.1, res.2.1 + 1, res.2.2 + RETRY_DELAY)

/-- `fetchGitHubReleases`: builds the releases URL and headers (opaque here)
and delegates to `fetchWithRetry` with the full `RETRY_TIMES` budget. -/
def fetchGitHubReleases (env : Env) (owner repo : String) :
    Except String (List Release) × Nat × Nat :=
  fetchWithRetry (env.releases owner repo) RETRY_TIMES 0

/-- The record `{ plugin, count, error }` returned per plugin. -/
structure FetchResult where
  plugin : Plugin
  count : Option Int
  error : Option String
deriving DecidableEq

/-- Sum of `asset.download_count || 0` over all assets of all releases
(releases without an `assets` field contribute nothing).  `|| 0` and `?? 0`
coincide on integer counts since `0 || 0` is `0`. -/
def totalCount (releases : List Release) : Int :=
  releases.foldl
    (fun acc r =>
      match r.assets with
      | some assets => assets.foldl (fun a x => a + x.download_count.getD 0) acc
      | none => acc)
    0

/-- `getDownloadCountForPlugin`: unresolvable URL gives a typed per-plugin
error; otherwise the releases are fetched with retry and summed, any thrown
error being caught and surfaced as the `error` field. -/
def getDownloadCountForPlugin (env : Env) (plugin : Plugin) : FetchResult :=
  match extractGitHubRepo env plugin.downloadUrl with
  | none => ⟨plugin, none, some "无法从 downloadUrl 提取 GitHub 仓库信息"⟩
  | some (owner, repo) =>
    match (fetchGitHubReleases env owner repo).1 with
    | Except.ok releases => ⟨plugin, some (totalCount releases), none⟩
    | Except.error e => ⟨plugin, none, some e⟩

/-! ### getBeijingTime

`new Date(now.getTime() + 8*60*60*1000).toISOString()
   .replace(/\.\d{3}Z$/, '+08:00')`.

`Date.prototype.toISOString` is modelled arithmetically on the epoch
millisecond value (proleptic Gregorian calendar, zero-padded decimal
components), producing `YYYY-MM-DDTHH:mm:ss.sssZ`; the regex replacement is
modelled by an explicit check that the string ends in a dot, three digits
and `Z`, in which case those five characters are replaced by `+08:00`. -/

/-- The decimal digit character of `n % 10` (as JS `String(n)` produces). -/
def digitChar10 (n : Nat) : Char :=
  Char.ofNat (48 + n % 10)

/-- Two-digit zero-padded decimal (exact for `n < 100`). -/
def pad2 (n : Nat) : String :=
  String.mk [digitChar10 (n / 10), digitChar10 n]

/-- Three-digit zero-padded decimal (exact for `n < 1000`). -/
def pad3 (n : Nat) : String :=
  String.mk [digitChar10 (n / 100), digitChar10 (n / 10), digitChar10 n]

/-- Four-digit zero-padded decimal (exact for `n < 10000`). -/
def pad4 (n : Nat) : String :=
  String.mk [digitChar10 (n / 1000), digitChar10 (n / 100), digitChar10 (n / 10),
    digitChar10 n]

/-- Gregorian civil date from days since 1970-01-01 (standard
days-to-civil conversion, valid for the Date range used here). -/
def civilFromDays (z0 : Nat) : Nat × Nat × Nat :=
  let z := z0 + 719468
  let era := z / 146097
  let doe := z % 146097
  let yoe := (doe - doe / 1460 + doe / 36524 - doe / 146096) / 365
  let y := yoe + era * 400
  let doy := doe - (365 * yoe + yoe / 4 - yoe / 100)
  let mp := (5 * doy + 2) / 153
  let d := doy - (153 * mp + 2) / 5 + 1
  let m := if mp < 10 then mp + 3 else mp - 9
  (if m ≤ 2 then y + 1 else y, m, d)

/-- The `YYYY-MM-DDTHH:mm:ss` part of `toISOString` for epoch millis `t`. -/
def isoDateTimeSec (t : Nat) : String :=
  let ymd := civilFromDays (t / 86400000)
  pad4 ymd.1 ++ "-" ++ pad2 ymd.2.1 ++ "-" ++ pad2 ymd.2.2 ++ "T" ++
    pad2 (t / 3600000 % 24) ++ ":" ++ pad2 (t / 60000 % 60) ++ ":" ++
    pad2 (t / 1000 % 60)

/-- `Date.prototype.toISOString` for epoch millis `t`:
`YYYY-MM-DDTHH:mm:ss.sssZ`. -/
def toISOString (t : Nat) : String :=
  isoDateTimeSec t ++ "." ++ pad3 (t % 1000) ++ "Z"

/-- Whether a character list ends in `.` + three digits + `Z`
(the regex `\.\d{3}Z$`). -/
def tailIsMsZ (cs : List Char) : Bool :=
  match cs.reverse with
  | z :: c3 :: c2 :: c1 :: dot :: _ =>
    z == 'Z' && dot == '.' && c1.isDigit && c2.isDigit && c3.isDigit
  | _ => false

/-- `s.replace(/\.\d{3}Z$/, '+08:00')`: if the tail matches, drop the five
matched characters and append `+08:00`; otherwise the string is unchanged. -/
def replaceMsZSuffix (s : String) : String :=
  if tailIsMsZ s.data then
    String.mk (s.data.take (s.data.length - 5)) ++ "+08:00"
  else s

/-- `getBeijingTime`: shift the clock by 8 hours and rewrite the
`.sssZ` suffix of the ISO string to `+08:00`. -/
def getBeijingTime (nowMs : Nat) : String :=
  replaceMsZSuffix (toISOString (nowMs + 8 * 60 * 60 * 1000))

/-! ### The reconcile pass -/

/-- JS `Array.prototype.findIndex` (`none` for `-1`). -/
def jsFindIndex {α : Type} (f : α → Bool) : List α → Option Nat
  | [] => none
  | a :: rest => if f a then some 0 else (jsFindIndex f rest).map (· + 1)

/-- JS `x || 0` on an optional integer count: absent gives 0; `0 || 0` is
also 0, so on integers this is `Option.getD 0`. -/
def orZero (o : Option Int) : Int :=
  match o with
  | some c => c
  | none => 0

/-- The batching loop `for (i = 0; i < n; i += CONCURRENCY) slice(i, i+C)`,
with the list length as structural fuel (the loop advances by `n ≥ 1`
positions per iteration, so the fuel never runs out). -/
def chunksOfAux {α : Type} (n : Nat) : Nat → List α → List (List α)
  | _, [] => []
  | 0, l => [l]
  | Nat.succ fuel, l => l.take n :: chunksOfAux n fuel (l.drop n)

/-- Partition a list into consecutive slices of size `n` (last one short). -/
def chunksOf {α : Type} (n : Nat) (l : List α) : List (List α) :=
  chunksOfAux n l.length l

/-- The body of the result loop, one `result` at a time, over the state
`(plugins, hasAnyChange, downloadCountUpdated)`:
find the entry with the result's plugin id; on a fetch error keep
`originalCount = downloadCount || 0`; on success flag a change when the
stored count differs (strict `!==`) and overwrite it; finally, when
`updatePluginTime` is set, stamp `updateTime` and force a change. -/
def processResult (updatePluginTime : Bool) (beijingNow : String)
    (st : List Plugin × Bool × Nat) (result : FetchResult) :
    List Plugin × Bool × Nat :=
  match jsFindIndex (fun p => p.id == result.plugin.id) st.1 with
  | none => st
  | some pluginIndex =>
    match st.1.get? pluginIndex with
    | none => st
    | some cur =>
      let step :=
        match result.error with
        | some _ =>
          (st.1.set pluginIndex
            { cur with downloadCount := some (orZero cur.downloadCount) },
           st.2.1, st.2.2)
        | none =>
          (st.1.set pluginIndex { cur with downloadCount := result.count },
           st.2.1 || (cur.downloadCount != result.count),
           st.2.2 + (if cur.downloadCount != result.count then 1 else 0))
      if updatePluginTime then
        match step.1.get? pluginIndex with
        | none => (step.1, true, step.2.2)
        | some cur2 =>
          (step.1.set pluginIndex { cur2 with updateTime := some beijingNow },
           true, step.2.2)
      else step

/-- Outcome of one reconcile run: the final in-memory document, whether the
file was written and with what content, the `downloadCountUpdated` counter,
and how many remote fetches were performed. -/
structure RunResult where
  doc : Doc
  wrote : Bool
  written : Option Doc
  downloadCountUpdated : Nat
  fetched : Nat
deriving DecidableEq

/-- The core of `updateDownloadCounts` on a parsed document: empty (or
absent) plugin list returns early with no fetch and no write; otherwise the
plugins are fetched in batches of `CONCURRENCY`, the results folded into the
list, and the file written exactly when `hasAnyChange` ended up true. -/
def reconcileDoc (env : Env) (data : Doc) (updatePluginTime : Bool)
    (nowMs : Nat) : RunResult :=
  let plugins := data.plugins.getD []
  if plugins = [] then ⟨data, false, none, 0, 0⟩
  else
    let results :=
      ((chunksOf CONCURRENCY plugins).map
        (fun batch => batch.map (getDownloadCountForPlugin env))).flatten
    let beijingNow := getBeijingTime nowMs
    let st := results.foldl (processResult updatePluginTime beijingNow)
      (plugins, false, 0)
    let data1 := { data with plugins := some st.1 }
    if st.2.1 then ⟨data1, true, some data1, st.2.2, results.length⟩
    else ⟨data1, false, none, st.2.2, results.length⟩

/-- `updateDownloadCounts` including the file boundary: a missing registry
file (`checkFileExists` throws) or unparseable JSON propagates to the
top-level handler, which exits with code 1; a parsed document goes through
`reconcileDoc`. -/
def updateDownloadCounts (env : Env) (file : FileInput)
    (updatePluginTime : Bool) (nowMs : Nat) : Except Nat RunResult :=
  match file with
  | .missing => Except.error 1
  | .invalid _ => Except.error 1
  | .valid data => Except.ok (reconcileDoc env data updatePluginTime nowMs)

/-! ### Derived forms used to state and prove the reconcile properties -/

/-- The count part of the result loop's effect on one entry: fetch error
keeps `downloadCount || 0`; success overwrites the count. -/
def applyCount (env : Env) (p : Plugin) : Plugin :=
  match (getDownloadCountForPlugin env p).error with
  | some _ => { p with downloadCount := some (orZero p.downloadCount) }
  | none => { p with downloadCount := (getDownloadCountForPlugin env p).count }

/-- The stamping part of the result loop's effect on one entry. -/
def applyStamp (stamp : Bool) (now : String) (p1 : Plugin) : Plugin :=
  if stamp then { p1 with updateTime := some now } else p1

/-- The net effect of the result loop on the single entry whose id matches
its own fetch result (identical ids never collide in a well-formed
document): fetch error keeps `downloadCount || 0`; success overwrites the
count; stamping then sets `updateTime`. -/
def apply1 (env : Env) (stamp : Bool) (now : String) (p : Plugin) : Plugin :=
  applyStamp stamp now (applyCount env p)

/-- The contribution of one plugin to `hasAnyChange`: a successful fetch
whose count differs from the stored one, or the stamping flag. -/
def contrib (env : Env) (stamp : Bool) (p : Plugin) : Bool :=
  (match (getDownloadCountForPlugin env p).error with
   | some _ => false
   | none => p.downloadCount != (getDownloadCountForPlugin env p).count) || stamp

/-- The contribution of one plugin to `downloadCountUpdated`. -/
def updOf (env : Env) (p : Plugin) : Nat :=
  match (getDownloadCountForPlugin env p).error with
  | some _ => 0
  | none => if p.downloadCount != (getDownloadCountForPlugin env p).count then 1 else 0

/-- Whether an `Except` outcome is the error case. -/
def isErrorResult : Except String (List Release) → Bool
  | Except.error _ => true
  | Except.ok _ => false

/-! ### Concrete fixtures for the witness theorems -/

/-- A main document with a single plugin entry. -/
def mainDoc1 : Doc :=
  ⟨some [mkPlugin "a"], [("version", "4")]⟩

/-- A store document holding a count of 42 for plugin `a`. -/
def storeDoc42 : Doc :=
  ⟨some [{ mkPlugin "a" with downloadCount := some 42 }], []⟩

/-- An environment whose URL parser resolves everything to `github.com/o/r`
and whose API reports a single release with one asset of 10 downloads. -/
def envOk10 : Env :=
  ⟨fun _ => some ⟨"github.com", "/o/r"⟩,
   fun _ _ _ => Except.ok [⟨some [⟨some 10⟩]⟩]⟩

/-- An environment in which every URL fails to parse, so every fetch yields
the per-plugin "cannot resolve" error. -/
def envUnresolvable : Env :=
  ⟨fun _ => none, fun _ _ _ => Except.error "boom"⟩

/-- An environment with a resolvable URL whose every API attempt fails. -/
def envDown : Env :=
  ⟨fun _ => some ⟨"github.com", "/o/r"⟩, fun _ _ _ => Except.error "boom"⟩

/-- A plugin entry pointing at `github.com/o/r` with stored count 42. -/
def regPlugin42 : Plugin :=
  { mkPlugin "a" with
    downloadUrl := some "https://github.com/o/r"
    downloadCount := some 42 }

/-- A plugin entry pointing at `github.com/o/r` with stored count 0. -/
def regPlugin0 : Plugin :=
  { mkPlugin "a" with
    downloadUrl := some "https://github.com/o/r"
    downloadCount := some 0 }

/-- A registry document with one plugin of stored count 42. -/
def regDoc42 : Doc :=
  ⟨some [regPlugin42], [("version", "4")]⟩

/-- A registry document with one plugin of stored count 0. -/
def regDoc0 : Doc :=
  ⟨some [regPlugin0], [("version", "4")]⟩

/-- A registry document whose `plugins` key is absent. -/
def regDocNoPlugins : Doc :=
  ⟨none, [("version", "4")]⟩

/-! ## Helper lemmas -/

theorem find?_eq_of_mem_nodup {β : Type} (f : β → String) :
    ∀ (l : List β) (sp : β) (X : String), (l.map f).Nodup → sp ∈ l →
      f sp = X → l.find? (fun p => f p == X) = some sp := by
  intro l
  induction l with
  | nil => intro sp X _ h; cases h
  | cons q rest ih =>
    intro sp X hnd hm hsp
    rw [List.map_cons, List.nodup_cons] at hnd
    by_cases hq : (f q == X) = true
    · rw [@List.find?_cons_of_pos β (fun p => f p == X) q rest hq]
      rw [beq_iff_eq] at hq
      rcases List.mem_cons.mp hm with h | h
      · rw [h]
      · exfalso
        apply hnd.1
        rw [hq, ← hsp]
        exact List.mem_map_of_mem f h
    · rw [@List.find?_cons_of_neg β (fun p => f p == X) q rest hq]
      rcases List.mem_cons.mp hm with h | h
      · exact absurd (beq_iff_eq.mpr (h ▸ hsp)) hq
      · exact ih sp X hnd.2 h hsp

theorem jsFindIndex_append_cons {α : Type} (f : α → Bool) :
    ∀ (A : List α) (p : α) (B : List α), (∀ a ∈ A, f a = false) →
      f p = true → jsFindIndex f (A ++ p :: B) = some A.length := by
  intro A
  induction A with
  | nil => intro p B _ hp; simp [jsFindIndex, hp]
  | cons a A ih =>
    intro p B hA hp
    have hfa : f a = false := hA a (List.mem_cons_self a A)
    simp [jsFindIndex, hfa,
      ih p B (fun x hx => hA x (List.mem_cons_of_mem a hx)) hp]

theorem get?_append_length {α : Type} :
    ∀ (A : List α) (p : α) (B : List α), (A ++ p :: B).get? A.length = some p := by
  intro A
  induction A with
  | nil => intro p B; rfl
  | cons a A ih => intro p B; simpa using ih p B

theorem set_append_length {α : Type} :
    ∀ (A : List α) (p q : α) (B : List α),
      (A ++ p :: B).set A.length q = A ++ q :: B := by
  intro A
  induction A with
  | nil => intro p q B; rfl
  | cons a A ih =>
    intro p q B
    show a :: (A ++ p :: B).set A.length q = a :: (A ++ q :: B)
    rw [ih]

theorem forall₂_map_self {α : Type} (R : α → α → Prop) (f : α → α)
    (hall : ∀ a, R a (f a)) : ∀ l : List α, List.Forall₂ R l (l.map f) := by
  intro l
  induction l with
  | nil => exact List.Forall₂.nil
  | cons a l ih => exact List.Forall₂.cons (hall a) ih

/-! ## C1 -/

/-- C1: the claim says merge never fails on a missing or malformed store
document and degrades to `{plugins:[]}`; on the code, `readJSON` calls
`process.exit(1)` on any failure, which the caller's try/catch cannot
intercept, so the script terminates with exit code 1 and writes nothing.
This theorem evaluates the script at both failing inputs (store file
absent; store file containing `not json`). -/
theorem merge_store_read_failure_exits_one :
    mergeScript (.valid mainDoc1) .missing = Except.error 1 ∧
      mergeScript (.valid mainDoc1) (.invalid "not json") = Except.error 1 :=
  ⟨rfl, rfl⟩

/-! ## C2 -/

/-- C2 counterexample: with main holding one entry and the store document
being the literal string `not json`, the claim promises a merged output with
exactly one entry; instead the script exits with code 1 and produces no
output document at all. -/
theorem merge_malformed_store_produces_no_output :
    mergeScript (.valid mainDoc1) (.invalid "not json") = Except.error 1 :=
  rfl

/-- C2 amended: for every main document and every parseable store document,
the merge output's plugins list has exactly as many entries as the main
document's, with the same ids in the same order.  (When the store document
is absent or malformed the script exits with code 1 and produces no
output — see the counterexample.) -/
theorem merge_shape_for_parseable_inputs (m s : Doc) :
    mergeScript (.valid m) (.valid s) = Except.ok (mergeDocs m s) ∧
      ((mergeDocs m s).plugins.getD []).length = (m.plugins.getD []).length ∧
      ((mergeDocs m s).plugins.getD []).map Plugin.id =
        (m.plugins.getD []).map Plugin.id := by
  refine ⟨rfl, ?_, ?_⟩
  · simp [mergeDocs]
  · simp only [mergeDocs, Option.getD_some, List.map_map]
    rfl

/-! ## C3 -/

/-- C3: in a store document with unique ids, every main entry's merged
`downloadCount` is the matching store entry's `downloadCount` (absent count
read as 0) when the store has the id, and 0 when it does not — i.e. it is
the store `find?` result's count, defaulting to 0. -/
theorem merge_count_carry_forward (m s : Doc) (X : String) (i : Nat)
    (mp : Plugin) (hmp : (m.plugins.getD []).get? i = some mp)
    (hid : mp.id = X)
    (hnd : ((s.plugins.getD []).map Plugin.id).Nodup) :
    (((mergeDocs m s).plugins.getD []).get? i).map Plugin.downloadCount =
      some (some ((((s.plugins.getD []).find? (fun sp => sp.id == X)).map
        (fun sp => sp.downloadCount.getD 0)).getD 0)) := by
  have hget : ((mergeDocs m s).plugins.getD []).get? i =
      some (mergePlugin (s.plugins.getD []) mp) := by
    show ((m.plugins.getD []).map (mergePlugin (s.plugins.getD []))).get? i =
      some (mergePlugin (s.plugins.getD []) mp)
    rw [List.get?_map, hmp]
    rfl
  rw [hget]
  simp only [Option.map_some, mergePlugin, hid]
  have hmap : storeMapGet (s.plugins.getD []) X =
      ((s.plugins.getD []).find? (fun sp => sp.id == X)).map
        (fun sp => sp.downloadCount.getD 0) := by
    cases hf : (s.plugins.getD []).find? (fun sp => sp.id == X) with
    | none =>
      rw [List.find?_eq_none] at hf
      have : (s.plugins.getD []).reverse.find? (fun sp => sp.id == X) = none := by
        rw [List.find?_eq_none]
        intro x hx
        exact hf x (List.mem_reverse.mp hx)
      simp [storeMapGet, this]
    | some sp =>
      have hsp : sp.id = X := beq_iff_eq.mp
        (@List.find?_some Plugin (fun sp => sp.id == X) sp (s.plugins.getD []) hf)
      have hmem : sp ∈ (s.plugins.getD []).reverse :=
        List.mem_reverse.mpr
          (@List.mem_of_find?_eq_some Plugin (fun sp => sp.id == X) sp
            (s.plugins.getD []) hf)
      have hnd' : ((s.plugins.getD []).reverse.map Plugin.id).Nodup := by
        rw [List.map_reverse, List.nodup_reverse]
        exact hnd
      have := find?_eq_of_mem_nodup Plugin.id ((s.plugins.getD []).reverse)
        sp X hnd' hmem hsp
      simp [storeMapGet, this]
  rw [hmap]
  rfl

/-- C3 witness: main has id `a`, store has id `a` with count 42; the merged
entry carries 42. -/
theorem merge_count_carry_forward_witness :
    ((mainDoc1.plugins.getD []).get? 0 = some (mkPlugin "a")) ∧
      (((mergeDocs mainDoc1 storeDoc42).plugins.getD []).get? 0).map
          Plugin.downloadCount =
        some (some ((((storeDoc42.plugins.getD []).find?
          (fun sp => sp.id == "a")).map
            (fun sp => sp.downloadCount.getD 0)).getD 0)) :=
  ⟨by decide,
   merge_count_carry_forward mainDoc1 storeDoc42 "a" 0 (mkPlugin "a")
     (by decide) (by decide) (by decide)⟩

/-! ## C8 -/

/-- C8: merge keeps every top-level field of the main document other than
`plugins` unchanged, and in each output entry every field other than
`downloadCount` equals the corresponding main entry's field (same position). -/
theorem merge_frame_preservation (m s : Doc) :
    (mergeDocs m s).extra = m.extra ∧
      List.Forall₂
        (fun a b => b.id = a.id ∧ b.name = a.name ∧ b.version = a.version ∧
          b.downloadUrl = a.downloadUrl ∧ b.updateTime = a.updateTime ∧
          b.extra = a.extra)
        (m.plugins.getD []) ((mergeDocs m s).plugins.getD []) := by
  constructor
  · rfl
  · show List.Forall₂ _ _ ((m.plugins.getD []).map (mergePlugin (s.plugins.getD [])))
    exact forall₂_map_self _ _ (fun a => ⟨rfl, rfl, rfl, rfl, rfl, rfl⟩) _

/-! ## C6 -/

theorem fetchWithRetry_all_fail (attempt : Nat → Except String (List Release))
    (h : ∀ k, isErrorResult (attempt k) = true) :
    ∀ (retry k : Nat),
      isErrorResult (fetchWithRetry attempt retry k).1 = true ∧
        (fetchWithRetry attempt retry k).2.1 = retry + 1 ∧
        (fetchWithRetry attempt retry k).2.2 = retry * RETRY_DELAY := by
  intro retry
  induction retry with
  | zero =>
    intro k
    cases ha : attempt k with
    | ok v => exact absurd (ha ▸ h k) (by simp [isErrorResult])
    | error e => simp [fetchWithRetry, ha, isErrorResult]
  | succ r ih =>
    intro k
    cases ha : attempt k with
    | ok v => exact absurd (ha ▸ h k) (by simp [isErrorResult])
    | error e =>
      simp only [fetchWithRetry, ha]
      have := ih (k + 1)
      refine ⟨this.1, ?_, ?_⟩
      · simp [this.2.1]
      · simp [this.2.2, Nat.succ_mul]

/-- C6: when every attempt fails, the fetch for a plugin performs exactly
`RETRY_TIMES + 1 = 3` attempts, sleeping `RETRY_DELAY = 1000` ms between
consecutive attempts (`RETRY_TIMES` sleeps in total), and the exhausted
failure is surfaced as the plugin's `error` field with no count, not
thrown. -/
theorem fetch_retry_bound (env : Env) (p : Plugin) (o r : String)
    (h2 : extractGitHubRepo env p.downloadUrl = some (o, r))
    (h3 : ∀ k, isErrorResult (env.releases o r k) = true) :
    (fetchWithRetry (env.releases o r) RETRY_TIMES 0).2.1 = RETRY_TIMES + 1 ∧
      RETRY_TIMES + 1 = 3 ∧
      (fetchWithRetry (env.releases o r) RETRY_TIMES 0).2.2 =
        RETRY_TIMES * RETRY_DELAY ∧
      RETRY_DELAY = 1000 ∧
      isErrorResult (fetchWithRetry (env.releases o r) RETRY_TIMES 0).1 = true ∧
      Option.isSome (getDownloadCountForPlugin env p).error = true ∧
      (getDownloadCountForPlugin env p).count = none := by
  have hall := fetchWithRetry_all_fail (env.releases o r) h3 RETRY_TIMES 0
  have hform : ∃ e, getDownloadCountForPlugin env p = ⟨p, none, some e⟩ := by
    cases hres : (fetchGitHubReleases env o r).1 with
    | ok v =>
      exfalso
      have h1 := hall.1
      rw [show (fetchWithRetry (env.releases o r) RETRY_TIMES 0).1 =
        (fetchGitHubReleases env o r).1 from rfl, hres] at h1
      simp [isErrorResult] at h1
    | error e =>
      refine ⟨e, ?_⟩
      simp only [getDownloadCountForPlugin, h2]
      rw [hres]
  obtain ⟨e, he⟩ := hform
  refine ⟨hall.2.1, rfl, hall.2.2, rfl, hall.1, ?_, ?_⟩ <;> rw [he] <;> rfl

/-- C6 witness: a plugin pointing at `github.com/o/r` against an API whose
every attempt errors is attempted 3 times with 2 sleeps of 1000 ms and ends
in a per-plugin error. -/
theorem fetch_retry_bound_witness :
    (fetchWithRetry (envDown.releases "o" "r") RETRY_TIMES 0).2.1 =
        RETRY_TIMES + 1 ∧
      RETRY_TIMES + 1 = 3 ∧
      (fetchWithRetry (envDown.releases "o" "r") RETRY_TIMES 0).2.2 =
        RETRY_TIMES * RETRY_DELAY ∧
      RETRY_DELAY = 1000 ∧
      isErrorResult (fetchWithRetry (envDown.releases "o" "r") RETRY_TIMES 0).1 =
        true ∧
      Option.isSome (getDownloadCountForPlugin envDown regPlugin42).error = true ∧
      (getDownloadCountForPlugin envDown regPlugin42).count = none :=
  fetch_retry_bound envDown regPlugin42 "o" "r" (by decide) (fun k => rfl)

/-! ## C9 -/

theorem chunksOfAux_flatten {α : Type} (n : Nat) (hn : 0 < n) :
    ∀ (fuel : Nat) (l : List α), l.length ≤ fuel →
      (chunksOfAux n fuel l).flatten = l := by
  intro fuel
  induction fuel with
  | zero =>
    intro l hl
    have : l = [] := List.length_eq_zero.mp (Nat.le_zero.mp hl)
    subst this
    rfl
  | succ fuel ih =>
    intro l hl
    cases l with
    | nil => rfl
    | cons c cs =>
      show (List.take n (c :: cs) :: chunksOfAux n fuel (List.drop n (c :: cs))).flatten
        = c :: cs
      rw [List.flatten_cons, ih (List.drop n (c :: cs))
        (by
          rw [List.length_drop]
          simp only [List.length_cons]
          simp only [List.length_cons] at hl
          omega),
        List.take_append_drop]

theorem chunksOfAux_all_le {α : Type} (n : Nat) (hn : 0 < n) :
    ∀ (fuel : Nat) (l : List α), l.length ≤ fuel →
      (chunksOfAux n fuel l).all (fun b => decide (b.length ≤ n)) = true := by
  intro fuel
  induction fuel with
  | zero =>
    intro l hl
    have : l = [] := List.length_eq_zero.mp (Nat.le_zero.mp hl)
    subst this
    rfl
  | succ fuel ih =>
    intro l hl
    cases l with
    | nil => rfl
    | cons c cs =>
      show (List.take n (c :: cs) :: chunksOfAux n fuel (List.drop n (c :: cs))).all
        (fun b => decide (b.length ≤ n)) = true
      have h2 := ih (List.drop n (c :: cs))
        (by
          rw [List.length_drop]
          simp only [List.length_cons]
          simp only [List.length_cons] at hl
          omega)
      rw [List.all_cons, h2, Bool.and_true]
      simp [List.length_take]

/-- C9: the reconcile pass slices the plugin list into consecutive batches
of at most `CONCURRENCY = 5` entries that concatenate back to the whole
list in order, and the batched fetch produces exactly the per-plugin fetch
of every entry, each exactly once — the batch-then-await-all loop caps
in-flight requests at the batch size. -/
theorem reconcile_batching_bound (env : Env) (ps : List Plugin) :
    (chunksOf CONCURRENCY ps).flatten = ps ∧
      (chunksOf CONCURRENCY ps).all
        (fun b => decide (b.length ≤ CONCURRENCY)) = true ∧
      ((chunksOf CONCURRENCY ps).map
        (fun batch => batch.map (getDownloadCountForPlugin env))).flatten =
        ps.map (getDownloadCountForPlugin env) ∧
      CONCURRENCY = 5 := by
  have hflat : (chunksOf CONCURRENCY ps).flatten = ps :=
    chunksOfAux_flatten CONCURRENCY (by decide) ps.length ps (Nat.le_refl _)
  refine ⟨hflat, chunksOfAux_all_le CONCURRENCY (by decide) ps.length ps
    (Nat.le_refl _), ?_, rfl⟩
  rw [← List.map_flatten, hflat]

/-! ## C10 -/

/-- C10: when the registry document's plugins list is absent or empty,
reconcile returns successfully, performs no remote fetch, writes nothing,
and leaves the document unchanged. -/
theorem reconcile_empty_plugins_noop (env : Env) (d : Doc) (stamp : Bool)
    (now : Nat) (h : d.plugins = none ∨ d.plugins = some []) :
    updateDownloadCounts env (.valid d) stamp now =
      Except.ok ⟨d, false, none, 0, 0⟩ := by
  rcases h with h | h <;>
    simp [updateDownloadCounts, reconcileDoc, h]

/-- C10 witness: a document without a `plugins` key reconciles to itself
with zero fetches and no write. -/
theorem reconcile_empty_plugins_noop_witness :
    updateDownloadCounts envOk10 (.valid regDocNoPlugins) false 0 =
      Except.ok ⟨regDocNoPlugins, false, none, 0, 0⟩ :=
  reconcile_empty_plugins_noop envOk10 regDocNoPlugins false 0 (Or.inl rfl)

/-! ## Reconcile fold characterization -/

theorem getDCFP_plugin (env : Env) (p : Plugin) :
    (getDownloadCountForPlugin env p).plugin = p := by
  cases hrep : extractGitHubRepo env p.downloadUrl with
  | none =>
    simp only [getDownloadCountForPlugin, hrep]
  | some pr =>
    obtain ⟨o, r⟩ := pr
    simp only [getDownloadCountForPlugin, hrep]
    cases (fetchGitHubReleases env o r).1 <;> rfl

theorem getDCFP_eq_of_url (env : Env) (p q : Plugin)
    (h : q.downloadUrl = p.downloadUrl) :
    (getDownloadCountForPlugin env q).count =
        (getDownloadCountForPlugin env p).count ∧
      (getDownloadCountForPlugin env q).error =
        (getDownloadCountForPlugin env p).error := by
  cases hrep : extractGitHubRepo env p.downloadUrl with
  | none =>
    simp [getDownloadCountForPlugin, h, hrep]
  | some pr =>
    obtain ⟨o, r⟩ := pr
    simp only [getDownloadCountForPlugin, h, hrep]
    cases (fetchGitHubReleases env o r).1 <;> simp

theorem applyCount_id (env : Env) (p : Plugin) :
    (applyCount env p).id = p.id := by
  unfold applyCount
  cases herr : (getDownloadCountForPlugin env p).error <;> rfl

theorem applyCount_downloadUrl (env : Env) (p : Plugin) :
    (applyCount env p).downloadUrl = p.downloadUrl := by
  unfold applyCount
  cases herr : (getDownloadCountForPlugin env p).error <;> rfl

theorem apply1_id (env : Env) (stamp : Bool) (now : String) (p : Plugin) :
    (apply1 env stamp now p).id = p.id := by
  unfold apply1 applyStamp
  cases stamp <;> simp [applyCount_id]

theorem apply1_downloadUrl (env : Env) (stamp : Bool) (now : String) (p : Plugin) :
    (apply1 env stamp now p).downloadUrl = p.downloadUrl := by
  unfold apply1 applyStamp
  cases stamp <;> simp [applyCount_downloadUrl]

theorem get?_map_append_len (f : Plugin → Plugin) (A : List Plugin) (p : Plugin)
    (B : List Plugin) : ((A.map f) ++ p :: B).get? A.length = some p := by
  have := get?_append_length (A.map f) p B
  rwa [List.length_map] at this

theorem set_map_append_len (f : Plugin → Plugin) (A : List Plugin) (p q : Plugin)
    (B : List Plugin) : ((A.map f) ++ p :: B).set A.length q = (A.map f) ++ q :: B := by
  have := set_append_length (A.map f) p q B
  rwa [List.length_map] at this

theorem getElem_map_append_len (f : Plugin → Plugin) (A : List Plugin)
    (p : Plugin) (B : List Plugin)
    (h : A.length < ((A.map f) ++ p :: B).length) :
    ((A.map f) ++ p :: B)[A.length] = p := by
  have h2 := get?_map_append_len f A p B
  rw [List.get?_eq_getElem?, List.getElem?_eq_getElem h] at h2
  exact Option.some.inj h2

theorem foldl_processResult_spec (env : Env) (stamp : Bool) (now : String) :
    ∀ (post pre : List Plugin) (flag : Bool) (upd : Nat),
      ((pre ++ post).map Plugin.id).Nodup →
      (post.map (getDownloadCountForPlugin env)).foldl (processResult stamp now)
          (pre.map (apply1 env stamp now) ++ post, flag, upd) =
        ((pre ++ post).map (apply1 env stamp now),
         flag || post.any (contrib env stamp),
         upd + (post.map (updOf env)).sum) := by
  intro post
  induction post with
  | nil =>
    intro pre flag upd _
    simp
  | cons p rest ih =>
    intro pre flag upd hnd
    rw [List.map_cons, List.foldl_cons]
    have hidnotin : p.id ∉ pre.map Plugin.id := by
      rw [List.map_append, List.map_cons] at hnd
      have hdisj := (List.nodup_append.mp hnd).2.2
      intro hmem
      exact hdisj hmem (List.mem_cons_self _ _)
    have hA : ∀ a ∈ pre.map (apply1 env stamp now), (a.id == p.id) = false := by
      intro a ha
      obtain ⟨x, hx, rfl⟩ := List.mem_map.mp ha
      rw [apply1_id]
      rw [beq_eq_false_iff_ne]
      intro hxx
      exact hidnotin (hxx ▸ List.mem_map_of_mem Plugin.id hx)
    have hfind := jsFindIndex_append_cons (fun q => q.id == p.id)
      (pre.map (apply1 env stamp now)) p rest hA (by simp)
    have hstep : processResult stamp now
        (pre.map (apply1 env stamp now) ++ p :: rest, flag, upd)
        (getDownloadCountForPlugin env p) =
        ((pre ++ [p]).map (apply1 env stamp now) ++ rest,
         flag || contrib env stamp p, upd + updOf env p) := by
      simp only [processResult, getDCFP_plugin, hfind, get?_map_append_len]
      cases herr : (getDownloadCountForPlugin env p).error with
      | some e =>
        cases stamp <;>
          simp [herr, set_map_append_len, get?_map_append_len, getElem_map_append_len,
            apply1, applyCount, applyStamp, contrib, updOf, List.map_append]
      | none =>
        cases stamp <;>
          simp [herr, set_map_append_len, get?_map_append_len, getElem_map_append_len,
            apply1, applyCount, applyStamp, contrib, updOf, List.map_append]
    rw [hstep]
    have hnd' : (((pre ++ [p]) ++ rest).map Plugin.id).Nodup := by
      rw [List.append_assoc]
      simpa using hnd
    rw [ih (pre ++ [p]) (flag || contrib env stamp p) (upd + updOf env p) hnd']
    rw [List.append_assoc]
    simp [Bool.or_assoc, Nat.add_assoc]

theorem reconcileDoc_spec (env : Env) (d : Doc) (stamp : Bool) (now : Nat)
    (hnd : ((d.plugins.getD []).map Plugin.id).Nodup)
    (hne : d.plugins.getD [] ≠ []) :
    reconcileDoc env d stamp now =
      ⟨{ d with plugins := some ((d.plugins.getD []).map
          (apply1 env stamp (getBeijingTime now))) },
       (d.plugins.getD []).any (contrib env stamp),
       (if (d.plugins.getD []).any (contrib env stamp) then
          some { d with plugins := some ((d.plugins.getD []).map
            (apply1 env stamp (getBeijingTime now))) }
        else none),
       ((d.plugins.getD []).map (updOf env)).sum,
       (d.plugins.getD []).length⟩ := by
  have hflat : (chunksOf CONCURRENCY (d.plugins.getD [])).flatten =
      d.plugins.getD [] :=
    chunksOfAux_flatten CONCURRENCY (by decide) (d.plugins.getD []).length
      (d.plugins.getD []) (Nat.le_refl _)
  have hres : ((chunksOf CONCURRENCY (d.plugins.getD [])).map
      (fun batch => batch.map (getDownloadCountForPlugin env))).flatten =
      (d.plugins.getD []).map (getDownloadCountForPlugin env) := by
    rw [← List.map_flatten, hflat]
  have hfold := foldl_processResult_spec env stamp (getBeijingTime now)
    (d.plugins.getD []) [] false 0 (by simpa using hnd)
  simp only [List.map_nil, List.nil_append, Bool.false_or, Nat.zero_add] at hfold
  simp only [reconcileDoc, hres, hfold]
  rw [if_neg hne]
  simp only [List.length_map]
  cases hany : (d.plugins.getD []).any (contrib env stamp) <;> simp

theorem reconcileDoc_wrote (env : Env) (d : Doc) (stamp : Bool) (now : Nat)
    (hnd : ((d.plugins.getD []).map Plugin.id).Nodup) :
    (reconcileDoc env d stamp now).wrote =
      (d.plugins.getD []).any (contrib env stamp) := by
  by_cases hne : d.plugins.getD [] = []
  · simp [reconcileDoc, hne]
  · rw [reconcileDoc_spec env d stamp now hnd hne]

/-! ## C4 -/

/-- C4: when the fetch for the plugin at position `i` fails (unresolvable
URL or exhausted retries), reconcile leaves that entry's `downloadCount` at
its prior value (`|| 0`: a present count is kept exactly, an absent one
becomes its documented default 0 — never erasing a known count), while
still processing every plugin: the list keeps its length and all entries
are fetched. -/
theorem reconcile_fetch_failure_preserves_count (env : Env) (d : Doc)
    (stamp : Bool) (now : Nat) (i : Nat) (p : Plugin)
    (hnd : ((d.plugins.getD []).map Plugin.id).Nodup)
    (hp : (d.plugins.getD []).get? i = some p)
    (herr : Option.isSome (getDownloadCountForPlugin env p).error = true) :
    ((((reconcileDoc env d stamp now).doc.plugins.getD []).get? i).map
        Plugin.downloadCount) = some (some (orZero p.downloadCount)) ∧
      ((reconcileDoc env d stamp now).doc.plugins.getD []).length =
        (d.plugins.getD []).length ∧
      (reconcileDoc env d stamp now).fetched = (d.plugins.getD []).length := by
  have hne : d.plugins.getD [] ≠ [] := by
    intro h
    rw [h] at hp
    cases hp
  rw [reconcileDoc_spec env d stamp now hnd hne]
  refine ⟨?_, by simp, rfl⟩
  simp only [Option.getD_some]
  rw [List.get?_map, hp]
  have hdc : (apply1 env stamp (getBeijingTime now) p).downloadCount =
      some (orZero p.downloadCount) := by
    cases he2 : (getDownloadCountForPlugin env p).error with
    | none => rw [he2] at herr; simp at herr
    | some e =>
      unfold apply1 applyStamp
      simp only [applyCount, he2]
      cases stamp <;> rfl
  simp [hdc]

/-- C4 witness: a plugin whose URL cannot be resolved keeps its stored
count 42 through a reconcile run that still fetches and keeps one entry. -/
theorem reconcile_fetch_failure_preserves_count_witness :
    ((((reconcileDoc envUnresolvable regDoc42 false 0).doc.plugins.getD
        []).get? 0).map Plugin.downloadCount) =
        some (some (orZero regPlugin42.downloadCount)) ∧
      ((reconcileDoc envUnresolvable regDoc42 false 0).doc.plugins.getD
        []).length = (regDoc42.plugins.getD []).length ∧
      (reconcileDoc envUnresolvable regDoc42 false 0).fetched =
        (regDoc42.plugins.getD []).length :=
  reconcile_fetch_failure_preserves_count envUnresolvable regDoc42 false 0 0
    regPlugin42 (by decide) (by decide) (by decide)

/-! ## C5 -/

theorem map_id_apply1 (env : Env) (stamp : Bool) (now : String)
    (l : List Plugin) :
    (l.map (apply1 env stamp now)).map Plugin.id = l.map Plugin.id := by
  induction l with
  | nil => rfl
  | cons a l ih => simp [apply1_id, ih]

theorem apply1_downloadCount_success (env : Env) (now : String) (p : Plugin)
    (he : (getDownloadCountForPlugin env p).error = none) :
    (apply1 env false now p).downloadCount =
      (getDownloadCountForPlugin env p).count := by
  unfold apply1 applyStamp
  simp only [applyCount, he]
  rfl

theorem contrib_apply1_false (env : Env) (now : String) (p : Plugin) :
    contrib env false (apply1 env false now p) = false := by
  have hurl : (apply1 env false now p).downloadUrl = p.downloadUrl :=
    apply1_downloadUrl env false now p
  have hc := getDCFP_eq_of_url env p (apply1 env false now p) hurl
  unfold contrib
  rw [hc.2, hc.1]
  cases he : (getDownloadCountForPlugin env p).error with
  | some e => simp
  | none =>
    simp only [Bool.or_false]
    rw [apply1_downloadCount_success env now p he]
    simp

theorem any_contrib_apply1_false (env : Env) (now : String) (l : List Plugin) :
    (l.map (apply1 env false now)).any (contrib env false) = false := by
  induction l with
  | nil => rfl
  | cons a l ih => simp [contrib_apply1_false, ih]

/-- C5: with unique ids, a reconcile run without stamping persists only if
some field of the document actually changed (no write, or the final document
differs from the input), and a second run on the resulting state — the
written document if a write happened, the untouched file otherwise — against
the same remote data performs no write. -/
theorem reconcile_persist_only_on_change_and_idempotent (env : Env) (d : Doc)
    (now1 now2 : Nat)
    (hnd : ((d.plugins.getD []).map Plugin.id).Nodup) :
    ((reconcileDoc env d false now1).wrote = false ∨
       decide ((reconcileDoc env d false now1).doc = d) = false) ∧
      (reconcileDoc env
        (if (reconcileDoc env d false now1).wrote then
          (reconcileDoc env d false now1).doc
         else d) false now2).wrote = false := by
  have hw := reconcileDoc_wrote env d false now1 hnd
  cases hany : (d.plugins.getD []).any (contrib env false) with
  | false =>
    rw [hany] at hw
    refine ⟨Or.inl hw, ?_⟩
    rw [hw, show (if (false : Bool) then (reconcileDoc env d false now1).doc
      else d) = d from rfl]
    rw [reconcileDoc_wrote env d false now2 hnd, hany]
  | true =>
    rw [hany] at hw
    have hne : d.plugins.getD [] ≠ [] := by
      intro h
      rw [h] at hany
      simp at hany
    have hspec := reconcileDoc_spec env d false now1 hnd hne
    obtain ⟨q, hqmem, hq⟩ := List.any_eq_true.mp hany
    have herrq : (getDownloadCountForPlugin env q).error = none ∧
        (q.downloadCount != (getDownloadCountForPlugin env q).count) = true := by
      cases he : (getDownloadCountForPlugin env q).error with
      | some e => simp only [contrib, he] at hq; simp at hq
      | none =>
        refine ⟨rfl, ?_⟩
        simp only [contrib, he] at hq
        simpa using hq
    have hqne : q.downloadCount ≠ (getDownloadCountForPlugin env q).count :=
      bne_iff_ne.mp herrq.2
    have happq : (apply1 env false (getBeijingTime now1) q).downloadCount =
        (getDownloadCountForPlugin env q).count :=
      apply1_downloadCount_success env (getBeijingTime now1) q herrq.1
    have hfin_ne : (d.plugins.getD []).map
        (apply1 env false (getBeijingTime now1)) ≠ d.plugins.getD [] := by
      intro heq
      obtain ⟨j, hj⟩ := List.get?_of_mem hqmem
      have h1 : ((d.plugins.getD []).map
          (apply1 env false (getBeijingTime now1))).get? j =
          some (apply1 env false (getBeijingTime now1) q) := by
        rw [List.get?_map, hj]
        rfl
      rw [heq, hj] at h1
      have h2 : q = apply1 env false (getBeijingTime now1) q :=
        Option.some.inj h1
      apply hqne
      rw [← happq]
      exact congrArg Plugin.downloadCount h2
    have hplug_some : d.plugins = some (d.plugins.getD []) := by
      cases hdp : d.plugins with
      | none =>
        rw [hdp] at hne
        simp at hne
      | some l => rfl
    have hdoc_ne : (reconcileDoc env d false now1).doc ≠ d := by
      rw [hspec]
      intro heq
      have hpl := congrArg Doc.plugins heq
      simp only at hpl
      rw [hplug_some] at hpl
      exact hfin_ne (Option.some.inj hpl)
    refine ⟨Or.inr (decide_eq_false hdoc_ne), ?_⟩
    rw [hw, show (if (true : Bool) then (reconcileDoc env d false now1).doc
      else d) = (reconcileDoc env d false now1).doc from rfl]
    have hdoc : (reconcileDoc env d false now1).doc =
        { d with plugins := some ((d.plugins.getD []).map
          (apply1 env false (getBeijingTime now1))) } := by
      rw [hspec]
    rw [hdoc]
    have hnd2 : ((({ d with plugins := some ((d.plugins.getD []).map
        (apply1 env false (getBeijingTime now1))) } : Doc).plugins.getD
        []).map Plugin.id).Nodup := by
      simp only [Option.getD_some]
      rw [map_id_apply1]
      exact hnd
    rw [reconcileDoc_wrote env _ false now2 hnd2]
    simp only [Option.getD_some]
    exact any_contrib_apply1_false env (getBeijingTime now1) (d.plugins.getD [])

/-- C5 witness: one plugin stored at 42 while the remote reports 10 — the
first run writes a changed document, the second run on the written document
performs no write. -/
theorem reconcile_persist_only_on_change_and_idempotent_witness :
    ((reconcileDoc envOk10 regDoc42 false 0).wrote = false ∨
       decide ((reconcileDoc envOk10 regDoc42 false 0).doc = regDoc42) =
         false) ∧
      (reconcileDoc envOk10
        (if (reconcileDoc envOk10 regDoc42 false 0).wrote then
          (reconcileDoc envOk10 regDoc42 false 0).doc
         else regDoc42) false 1).wrote = false :=
  reconcile_persist_only_on_change_and_idempotent envOk10 regDoc42 0 1
    (by decide)

/-! ## C7 -/

theorem digitChar10_isDigit (n : Nat) : (digitChar10 n).isDigit = true := by
  have h : n % 10 < 10 := Nat.mod_lt _ (by decide)
  have hall : ∀ k : Fin 10, (Char.ofNat (48 + k.val)).isDigit = true := by decide
  exact hall ⟨n % 10, h⟩

theorem digitChar10_ne_dot (n : Nat) : (digitChar10 n != '.') = true := by
  have h : n % 10 < 10 := Nat.mod_lt _ (by decide)
  have hall : ∀ k : Fin 10, (Char.ofNat (48 + k.val) != '.') = true := by decide
  exact hall ⟨n % 10, h⟩

theorem tailIsMsZ_shape (X : List Char) (a b c : Char)
    (ha : a.isDigit = true) (hb : b.isDigit = true) (hc : c.isDigit = true) :
    tailIsMsZ (X ++ '.' :: a :: b :: c :: ['Z']) = true := by
  unfold tailIsMsZ
  rw [List.reverse_append]
  simp [ha, hb, hc]

theorem tail_toISOString (t : Nat) : tailIsMsZ (toISOString t).data = true := by
  have hdata : (toISOString t).data = (isoDateTimeSec t).data ++ '.' ::
      digitChar10 (t % 1000 / 100) :: digitChar10 (t % 1000 / 10) ::
      digitChar10 (t % 1000) :: ['Z'] := by
    simp [toISOString, pad3, String.data_append]
  rw [hdata]
  exact tailIsMsZ_shape _ _ _ _ (digitChar10_isDigit _) (digitChar10_isDigit _)
    (digitChar10_isDigit _)

theorem take_append_five (X : List Char) (c1 c2 c3 c4 c5 : Char) :
    (X ++ [c1, c2, c3, c4, c5]).take ((X ++ [c1, c2, c3, c4, c5]).length - 5)
      = X := by
  rw [List.length_append]
  simp only [List.length_cons, List.length_nil]
  rw [show X.length + (0 + 1 + 1 + 1 + 1 + 1) - 5 = X.length by omega]
  exact List.take_left X _

/-- `replace(/\.\d{3}Z$/, '+08:00')` on a `toISOString` result always fires
and leaves exactly the date-time-to-seconds prefix plus the fixed offset. -/
theorem replace_toISOString (t : Nat) :
    replaceMsZSuffix (toISOString t) = isoDateTimeSec t ++ "+08:00" := by
  unfold replaceMsZSuffix
  rw [tail_toISOString t]
  rw [if_pos rfl]
  have hdata : (toISOString t).data = (isoDateTimeSec t).data ++
      ['.', digitChar10 (t % 1000 / 100), digitChar10 (t % 1000 / 10),
       digitChar10 (t % 1000), 'Z'] := by
    simp [toISOString, pad3, String.data_append]
  rw [hdata, take_append_five]

/-- `getBeijingTime` is the shifted clock's date-time to seconds precision
with the fixed `+08:00` offset appended. -/
theorem getBeijingTime_eq (nowMs : Nat) :
    getBeijingTime nowMs =
      isoDateTimeSec (nowMs + 8 * 60 * 60 * 1000) ++ "+08:00" := by
  unfold getBeijingTime
  rw [replace_toISOString]

theorem all_ne_dot_pad2 (n : Nat) :
    (pad2 n).data.all (fun c => c != '.') = true := by
  simp [pad2, digitChar10_ne_dot]

theorem all_ne_dot_pad4 (n : Nat) :
    (pad4 n).data.all (fun c => c != '.') = true := by
  simp [pad4, digitChar10_ne_dot]

theorem all_ne_dot_iso (t : Nat) :
    (isoDateTimeSec t).data.all (fun c => c != '.') = true := by
  unfold isoDateTimeSec
  simp [String.data_append, List.all_append, all_ne_dot_pad2, all_ne_dot_pad4,
    pad2, pad4, digitChar10_ne_dot]

/-- No sub-second precision: the produced timestamp contains no dot. -/
theorem no_dot_getBeijingTime (t : Nat) :
    (getBeijingTime t).data.all (fun c => c != '.') = true := by
  rw [getBeijingTime_eq]
  rw [String.data_append, List.all_append]
  rw [all_ne_dot_iso]
  rfl

theorem apply1_updateTime_stamp (env : Env) (now : String) (p : Plugin) :
    (apply1 env true now p).updateTime = some now := by
  unfold apply1 applyStamp
  simp

/-- C7: with unique ids and a nonempty plugin list, a stamping reconcile run
writes the current moment into every entry's `updateTime`, forces a write by
itself, and the stamped value is the clock shifted by 8 hours rendered to
seconds precision with the fixed `+08:00` suffix and no sub-second part. -/
theorem stamp_update_time_beijing (env : Env) (d : Doc) (now : Nat)
    (hnd : ((d.plugins.getD []).map Plugin.id).Nodup)
    (hne : d.plugins.getD [] ≠ []) :
    ((reconcileDoc env d true now).doc.plugins.getD []).map Plugin.updateTime =
        List.replicate (d.plugins.getD []).length (some (getBeijingTime now)) ∧
      (reconcileDoc env d true now).wrote = true ∧
      getBeijingTime now =
        isoDateTimeSec (now + 8 * 60 * 60 * 1000) ++ "+08:00" ∧
      (getBeijingTime now).data.all (fun c => c != '.') = true := by
  refine ⟨?_, ?_, getBeijingTime_eq now, no_dot_getBeijingTime now⟩
  · rw [reconcileDoc_spec env d true now hnd hne]
    simp only [Option.getD_some, List.map_map]
    have : (Plugin.updateTime ∘ apply1 env true (getBeijingTime now)) =
        fun _ => some (getBeijingTime now) := by
      funext p
      exact apply1_updateTime_stamp env (getBeijingTime now) p
    rw [this]
    exact List.map_const (d.plugins.getD []) (some (getBeijingTime now))
  · rw [reconcileDoc_wrote env d true now hnd]
    cases hps : d.plugins.getD [] with
    | nil => exact absurd hps hne
    | cons a l =>
      rw [List.any_cons]
      have : contrib env true a = true := by
        unfold contrib
        simp
      rw [this]
      rfl

/-- C7 witness: stamping one plugin at epoch 0 produces updateTime
`1970-01-01T08:00:00+08:00` on the single entry and forces the write. -/
theorem stamp_update_time_beijing_witness :
    ((reconcileDoc envOk10 regDoc42 true 0).doc.plugins.getD []).map
        Plugin.updateTime =
        List.replicate (regDoc42.plugins.getD []).length
          (some (getBeijingTime 0)) ∧
      (reconcileDoc envOk10 regDoc42 true 0).wrote = true ∧
      getBeijingTime 0 =
        isoDateTimeSec (0 + 8 * 60 * 60 * 1000) ++ "+08:00" ∧
      (getBeijingTime 0).data.all (fun c => c != '.') = true :=
  stamp_update_time_beijing envOk10 regDoc42 0 (by decide) (by decide)

end PluginIndex
